import Mathlib

/-!
Verification of the AI video summarizer orchestration code.

The development shallowly embeds the server action module (actions.ts) and
the submit handler of the form component (video-summarizer.tsx):
pure string processing becomes Lean functions on String and List Char,
the external services (video metadata, transcript, generative language
model) become oracles collected in an Env record, and thrown exceptions
become Except values. Network activity is made observable through an
explicit event trace. Machine integers do not occur; all arithmetic is
on Nat.
-/

namespace VideoSummarizer

/-- Decidable equality for Except values, used to evaluate the embedded
functions on concrete inputs. -/
instance {ε α : Type} [DecidableEq ε] [DecidableEq α] : DecidableEq (Except ε α) := fun a b =>
  match a, b with
  | Except.ok x, Except.ok y =>
      if h : x = y then isTrue (congrArg Except.ok h)
      else isFalse (fun he => h (Except.ok.inj he))
  | Except.error x, Except.error y =>
      if h : x = y then isTrue (congrArg Except.error h)
      else isFalse (fun he => h (Except.error.inj he))
  | Except.ok _, Except.error _ => isFalse (fun he => Except.noConfusion he)
  | Except.error _, Except.ok _ => isFalse (fun he => Except.noConfusion he)

/-- SummaryResult record (actions.ts lines 10 to 14). -/
structure SummaryResult where
  shortSummary : String
  longSummary : String
  keyPoints : List String
deriving DecidableEq, Repr

/-- One observable network interaction of the pipeline. An llmCall event
marks one invocation of generateContent for the given prompt index; every
such invocation performs at least one request to the language model API. -/
inductive NetEvent where
  | metadataFetch
  | transcriptFetch
  | llmCall (promptIdx : Nat)
deriving DecidableEq, Repr

/-- Oracles for the three external collaborators.
info models ytdl.getInfo (title and nullable description; an error value
models a thrown exception). transcriptSvc models
YoutubeTranscript.fetchTranscript, returning the text fragments of the
timed entries. generate models model.generateContent: for a prompt and a
zero-based attempt index it yields the text of the response or the message
of the thrown error. -/
structure Env where
  info : String → Except String (String × Option String)
  transcriptSvc : String → Except String (List String)
  generate : String → Nat → Except String String

/- ### The URL identifier extraction (actions.ts lines 131 to 135)

The regex is
  ^.*(youtu.be\/|v\/|u\/\w\/|embed\/|watch\?v=|\&v=)([^#\&\?]*).*
matched with String.prototype.match. The leading greedy .* cannot cross a
line terminator and backtracks from the right, so the alternative group is
matched at the rightmost feasible position of the first line; at a fixed
position the alternatives are tried in the order written. The dot in
youtu.be matches any single non line terminator character. Group 2 then
greedily takes the characters up to the next one of # & ?. -/

/-- Characters the JavaScript dot (no s flag) does not match. -/
def isLineTerm (c : Char) : Bool :=
  c == '\n' || c == '\r' || c == '\u2028' || c == '\u2029'

/-- JavaScript word character class \w. -/
def isWordChar (c : Char) : Bool :=
  c.isAlpha || c.isDigit || c == '_'

/-- One atom of a regex alternative: a literal character, the dot, or the
word character class. -/
inductive RegexAtom where
  | lit (c : Char)
  | dot
  | wordChar
deriving DecidableEq, Repr

/-- Whether a regex atom matches a character. -/
def atomMatches : RegexAtom → Char → Bool
  | RegexAtom.lit a, c => c == a
  | RegexAtom.dot, c => !isLineTerm c
  | RegexAtom.wordChar, c => isWordChar c

/-- Match a sequence of atoms against the start of the input, returning
the remainder on success. -/
def matchAtoms : List RegexAtom → List Char → Option (List Char)
  | [], cs => some cs
  | _ :: _, [] => none
  | a :: ps, c :: cs => if atomMatches a c then matchAtoms ps cs else none

/-- The six alternatives of capture group 1, in the order of the regex:
youtu.be/ (with the regex dot), v/, u/\w/, embed/, watch?v=, &v=. -/
def regexAlts : List (List RegexAtom) :=
  [[RegexAtom.lit 'y', RegexAtom.lit 'o', RegexAtom.lit 'u', RegexAtom.lit 't',
    RegexAtom.lit 'u', RegexAtom.dot, RegexAtom.lit 'b', RegexAtom.lit 'e',
    RegexAtom.lit '/'],
   [RegexAtom.lit 'v', RegexAtom.lit '/'],
   [RegexAtom.lit 'u', RegexAtom.lit '/', RegexAtom.wordChar, RegexAtom.lit '/'],
   [RegexAtom.lit 'e', RegexAtom.lit 'm', RegexAtom.lit 'b', RegexAtom.lit 'e',
    RegexAtom.lit 'd', RegexAtom.lit '/'],
   [RegexAtom.lit 'w', RegexAtom.lit 'a', RegexAtom.lit 't', RegexAtom.lit 'c',
    RegexAtom.lit 'h', RegexAtom.lit '?', RegexAtom.lit 'v', RegexAtom.lit '='],
   [RegexAtom.lit '&', RegexAtom.lit 'v', RegexAtom.lit '=']]

/-- Try a list of alternatives in order, as regex alternation does. -/
def firstAlt : List (List RegexAtom) → List Char → Option (List Char)
  | [], _ => none
  | p :: ps, cs =>
      match matchAtoms p cs with
      | some r => some r
      | none => firstAlt ps cs

/-- Try the six alternatives of the capture group 1 at the head of the
list, in the order they appear in the regex, returning the remainder after
the matched alternative. -/
def tryAlt (cs : List Char) : Option (List Char) :=
  firstAlt regexAlts cs

/-- Declarative form of the six regex alternatives: the list starts with
one of the recognized shapes. -/
def ShapeHead (cs : List Char) : Prop :=
  (∃ c rest, isLineTerm c = false ∧
      cs = 'y' :: 'o' :: 'u' :: 't' :: 'u' :: c :: 'b' :: 'e' :: '/' :: rest) ∨
  (∃ rest, cs = 'v' :: '/' :: rest) ∨
  (∃ c rest, isWordChar c = true ∧ cs = 'u' :: '/' :: c :: '/' :: rest) ∨
  (∃ rest, cs = 'e' :: 'm' :: 'b' :: 'e' :: 'd' :: '/' :: rest) ∨
  (∃ rest, cs = 'w' :: 'a' :: 't' :: 'c' :: 'h' :: '?' :: 'v' :: '=' :: rest) ∨
  (∃ rest, cs = '&' :: 'v' :: '=' :: rest)

/-- Scan for the position at which the backtracking engine matches the
alternative group: the rightmost position reachable by the leading greedy
dot star (hence never past a line terminator), preferring positions
farther right. Returns the remainder after the matched alternative. -/
def scanPos : List Char → Option (List Char)
  | [] => none
  | c :: rest =>
      if isLineTerm c then tryAlt (c :: rest)
      else
        match scanPos rest with
        | some r => some r
        | none => tryAlt (c :: rest)

/-- Capture group 2 of the regex: the longest run of characters other
than # & ? after the matched alternative. -/
def captureOf (cs : List Char) : List Char :=
  cs.takeWhile fun c => !(c == '#' || c == '&' || c == '?')

/-- getYoutubeId (actions.ts lines 131 to 135): run the regex match and
return group 2 when it has exactly 11 characters, null otherwise. -/
def getYoutubeId (url : String) : Option String :=
  match scanPos url.data with
  | some rest =>
      if (captureOf rest).length = 11 then some (String.mk (captureOf rest)) else none
  | none => none

/-- Modelled from the spec wording of claim C3, for comparison with the
code: the five URL shapes the claim lists, read as literal substrings
(watch?v=, youtu.be/, v/, embed/, u/<char>/). Used only to refute the
claim as stated; the code recognizes one further shape. -/
def hasUCharSlash : List Char → Bool
  | 'u' :: '/' :: _ :: '/' :: _ => true
  | _ :: cs => hasUCharSlash cs
  | [] => false

/-- Substring test, modelling the JavaScript String.prototype.includes. -/
def strContains (s sub : String) : Bool :=
  decide (sub.data <:+: s.data)

/-- Modelled from the spec wording of claim C3: the URL matches one of the
five listed shapes. -/
def specShapeMatch (url : String) : Bool :=
  strContains url "watch?v=" || strContains url "youtu.be/" ||
  strContains url "v/" || strContains url "embed/" || hasUCharSlash url.data

/- ### Transcript fetch (actions.ts lines 121 to 129) -/

/-- getTranscript: fetch the timed entries, join their texts with single
spaces; any thrown error is swallowed and yields the empty string. -/
def getTranscript (env : Env) (videoId : String) : String :=
  match env.transcriptSvc videoId with
  | Except.ok entries => String.intercalate " " entries
  | Except.error _ => ""

/- ### Transcript truncation and prompts (actions.ts lines 33 to 70) -/

/-- The truncation of actions.ts line 34:
transcript.slice(0, 10000) + (transcript.length > 10000 ? ... : ...). -/
def truncatedTranscript (transcript : String) : String :=
  String.mk (transcript.data.take 10000) ++
    (if transcript.length > 10000 then "..." else "")

/-- The short summary prompt template (actions.ts lines 50 to 55). -/
def shortSummaryPrompt (videoTitle truncated : String) : String :=
  "Provide a concise summary (50-100 words) of the following YouTube video based on its transcript:\n\n    Title: "
    ++ videoTitle ++ "\n    Transcript: " ++ truncated
    ++ "\n\n    Focus on the main topic and key takeaways."

/-- The long summary prompt template (actions.ts lines 57 to 63). -/
def longSummaryPrompt (videoTitle videoDescription truncated : String) : String :=
  "Provide a comprehensive summary (300-500 words) of the following YouTube video based on its transcript:\n\n    Title: "
    ++ videoTitle ++ "\n    Description: " ++ videoDescription
    ++ "\n    Transcript: " ++ truncated
    ++ "\n\n    Include main points, supporting details, and any conclusions or calls to action presented in the video."

/-- The key points prompt template (actions.ts lines 65 to 70). -/
def keyPointsPrompt (videoTitle truncated : String) : String :=
  "List 5-7 key points from the following YouTube video transcript:\n\n    Title: "
    ++ videoTitle ++ "\n    Transcript: " ++ truncated
    ++ "\n\n    Present each point as a brief, informative statement."

/- ### Key points post processing (actions.ts line 81) -/

/-- JavaScript String.prototype.split with separator newline, on character
lists. -/
def splitOnNewline : List Char → List (List Char)
  | [] => [[]]
  | c :: cs =>
      let r := splitOnNewline cs
      if c = '\n' then [] :: r
      else
        match r with
        | h :: t => (c :: h) :: t
        | [] => [[c]]

/-- JavaScript String.prototype.trim on character lists (the JavaScript
whitespace set is larger than Char.isWhitespace on exotic Unicode spaces,
which no claim exercises). -/
def jsTrim (l : List Char) : List Char :=
  ((l.dropWhile Char.isWhitespace).reverse.dropWhile Char.isWhitespace).reverse

/-- The replace of actions.ts line 81 with pattern ^\d+\.\s* and empty
replacement: drop a maximal leading digit run when it is followed by a
period, together with the whitespace after the period; otherwise leave the
line unchanged (with the digit run maximal, a shorter digit run is never
followed by a period, so backtracking cannot produce another match). -/
def stripMarker (l : List Char) : List Char :=
  if (l.takeWhile Char.isDigit).isEmpty then l
  else
    match l.dropWhile Char.isDigit with
    | '.' :: rest => rest.dropWhile Char.isWhitespace
    | _ => l

/-- The key points post processing of actions.ts line 81: split into
lines, keep the lines whose trim is nonempty, then on each kept line strip
the leading numeric marker and trim. -/
def processKeyPoints (s : String) : List String :=
  ((splitOnNewline s.data).filter fun l => jsTrim l ≠ []).map
    fun l => String.mk (jsTrim (stripMarker l))

/- ### The retry loop generateContent (actions.ts lines 100 to 119) -/

/-- The error message template of actions.ts line 118 (maxAttempts is the
literal 3; a null lastError or an empty message both contribute the empty
string, exactly as the JavaScript falsy test does). -/
def genFailMsg (lastMsg : String) : String :=
  "Failed to generate content after 3 attempts. " ++ lastMsg

/-- Outcome of one generateContent call: the returned text or the thrown
message, the backoff delays in seconds in the order they were awaited, and
the number of API attempts performed. -/
structure GenResult where
  result : Except String String
  delays : List Nat
  attemptsMade : Nat
deriving DecidableEq, Repr

/-- The body of the for loop of generateContent. The fuel argument is the
number of remaining iterations, 3 - attempt, so the loop condition
attempt < maxAttempts becomes fuel > 0 and the retry guard
attempt < maxAttempts - 1 becomes fuel > 1. The awaited backoff before the
retry is 2 ^ (attempt + 1) seconds (actions.ts line 113). -/
def genAux (oracle : Nat → Except String String) :
    Nat → Nat → Option String → GenResult
  | 0, attempt, lastError =>
      { result := Except.error (genFailMsg (lastError.getD "")),
        delays := [], attemptsMade := attempt }
  | fuel + 1, attempt, _ =>
      match oracle attempt with
      | Except.ok s => { result := Except.ok s, delays := [], attemptsMade := attempt + 1 }
      | Except.error e =>
          let rest := genAux oracle fuel (attempt + 1) (some e)
          if fuel = 0 then rest
          else { rest with delays := 2 ^ (attempt + 1) :: rest.delays }

/-- generateContent (actions.ts lines 100 to 119) with maxAttempts = 3,
driven by an oracle giving the outcome of each API attempt. -/
def generateContent (oracle : Nat → Except String String) : GenResult :=
  genAux oracle 3 0 none

/- ### The orchestrator summarizeVideo (actions.ts lines 16 to 98) -/

/-- The error classification of the catch block (actions.ts lines 83 to
97), applied to the message of the caught error. -/
def classifyError (msg : String) : String :=
  if strContains msg "quota" then "API quota exceeded. Please try again later."
  else if strContains msg "permission" then
    "Unable to access the video. It might be private or age-restricted."
  else if strContains msg "transcript" then
    "Unable to get video transcript. The video might not have captions available."
  else "Failed to summarize video: " ++ msg

/-- The try block of summarizeVideo (actions.ts lines 17 to 82), paired
with the trace of network interactions it performs. The three prompts run
under Promise.all; all three generateContent invocations are started, and
a rejection of the combined promise is modelled as the error of the lowest
failing prompt index. -/
def summarizeVideoTry (env : Env) (url : String) :
    Except String SummaryResult × List NetEvent :=
  match getYoutubeId url with
  | none => (Except.error "Invalid YouTube URL", [])
  | some videoId =>
      match env.info videoId with
      | Except.error e => (Except.error e, [NetEvent.metadataFetch])
      | Except.ok (videoTitle, desc) =>
          let videoDescription :=
            match desc with
            | some d => if d = "" then "No description available." else d
            | none => "No description available."
          let transcript := getTranscript env videoId
          if transcript = "" then
            (Except.error "Unable to fetch video transcript. The video might not have captions available.",
             [NetEvent.metadataFetch, NetEvent.transcriptFetch])
          else
            let truncated := truncatedTranscript transcript
            let r0 := generateContent (env.generate (shortSummaryPrompt videoTitle truncated))
            let r1 := generateContent (env.generate (longSummaryPrompt videoTitle videoDescription truncated))
            let r2 := generateContent (env.generate (keyPointsPrompt videoTitle truncated))
            let evs := [NetEvent.metadataFetch, NetEvent.transcriptFetch,
                        NetEvent.llmCall 0, NetEvent.llmCall 1, NetEvent.llmCall 2]
            match r0.result with
            | Except.error e => (Except.error e, evs)
            | Except.ok s0 =>
                match r1.result with
                | Except.error e => (Except.error e, evs)
                | Except.ok s1 =>
                    match r2.result with
                    | Except.error e => (Except.error e, evs)
                    | Except.ok s2 =>
                        (Except.ok { shortSummary := s0, longSummary := s1,
                                     keyPoints := processKeyPoints s2 }, evs)

/-- summarizeVideo: the try block wrapped by the catch block, which
rethrows the classified message (actions.ts lines 16 to 98). -/
def summarizeVideo (env : Env) (url : String) :
    Except String SummaryResult × List NetEvent :=
  match summarizeVideoTry env url with
  | (Except.ok v, evs) => (Except.ok v, evs)
  | (Except.error e, evs) => (Except.error (classifyError e), evs)

/- ### The submit handler (video-summarizer.tsx lines 37 to 70 and
lines 190 to 222) -/

/-- One firing of the progress interval callback (video-summarizer.tsx
lines 45 to 53): at 90 or above the callback clears its own interval and
keeps the value, otherwise it adds 10. Returns the new progress and
whether the interval is still scheduled. -/
def progressTick (prev : Nat) : Nat × Bool :=
  if prev ≥ 90 then (prev, false) else (prev + 10, true)

/-- Fire the interval callback the given number of times, stopping early
once the interval has cleared itself. -/
def runTicks : Nat → Nat × Bool → Nat × Bool
  | 0, st => st
  | n + 1, (p, active) => if active then runTicks n (progressTick p) else (p, active)

/-- The component state the submit handler leaves behind. intervalActive
records whether the repeating progress callback is still scheduled when
the handler finishes. -/
structure OnSubmitResult where
  progress : Nat
  intervalActive : Bool
  isLoading : Bool
  error : Option String
  summary : Option SummaryResult
deriving DecidableEq, Repr

/-- onSubmit (video-summarizer.tsx lines 190 to 222): the interval is
started, the awaited summarizeVideo resolves or rejects after the given
number of interval firings, and only the success path executes
setProgress(100) followed by clearInterval; the catch block merely stores
the message (the progressInterval binding is scoped inside the try block
and is not cleared there), and the finally block resets isLoading. -/
def onSubmit (outcome : Except String SummaryResult) (ticksDuringAwait : Nat) :
    OnSubmitResult :=
  let st := runTicks ticksDuringAwait (0, true)
  match outcome with
  | Except.ok r =>
      { progress := 100, intervalActive := false, isLoading := false,
        error := none, summary := some r }
  | Except.error e =>
      { progress := st.1, intervalActive := st.2, isLoading := false,
        error := some e, summary := none }

/- ### Concrete inputs used by witnesses and counterexamples -/

/-- Oracle failing twice, then succeeding. -/
def oracleTwoFail : Nat → Except String String :=
  fun n => if n < 2 then Except.error "rate limited" else Except.ok "done"

/-- Oracle failing on every attempt. -/
def oracleAllFail : Nat → Except String String :=
  fun _ => Except.error "bad luck"

/-- Environment whose language model rejects every attempt with a message
containing the word quota. -/
def envQuota : Env :=
  { info := fun _ => Except.ok ("T", none),
    transcriptSvc := fun _ => Except.ok ["hello", "world"],
    generate := fun _ _ => Except.error "boom quota" }

/-- Environment whose metadata service throws a quota message. -/
def envQuotaMeta : Env :=
  { info := fun _ => Except.error "quota reached for permission transcript",
    transcriptSvc := fun _ => Except.ok ["hello"],
    generate := fun _ _ => Except.ok "fine" }

/-- Environment whose transcript service throws. -/
def envNoTranscript : Env :=
  { info := fun _ => Except.ok ("T", none),
    transcriptSvc := fun _ => Except.error "not found",
    generate := fun _ _ => Except.ok "fine" }

/-- An arbitrary fully succeeding environment. -/
def envOk : Env :=
  { info := fun _ => Except.ok ("T", some "D"),
    transcriptSvc := fun _ => Except.ok ["hello"],
    generate := fun _ _ => Except.ok "fine" }

/-- A well formed watch URL. -/
def urlWatch : String := "https://www.youtube.com/watch?v=abcdefghijk"

/-- A well formed short URL. -/
def urlShort : String := "https://youtu.be/abcdefghijk"

/-! ## Helper lemmas -/

theorem strContains_iff {s sub : String} :
    strContains s sub = true ↔ sub.data <:+: s.data := by
  simp [strContains]

theorem strContains_append_left (a b sub : String)
    (h : strContains a sub = true) : strContains (a ++ b) sub = true := by
  rw [strContains_iff] at h ⊢
  rw [String.data_append]
  obtain ⟨s, t, hst⟩ := h
  exact ⟨s, t ++ b.data, by rw [← List.append_assoc, hst]⟩

theorem strContains_append_right (a b : String) : strContains (a ++ b) b = true := by
  rw [strContains_iff, String.data_append]
  exact ⟨a.data, [], by simp⟩

theorem strContains_middle (a m b : String) : strContains (a ++ m ++ b) m = true := by
  rw [strContains_iff]
  simp only [String.data_append]
  exact List.infix_append a.data m.data b.data

theorem head?_dropWhile_false {α : Type} (p : α → Bool) (l : List α) (c : α)
    (h : (l.dropWhile p).head? = some c) : p c = false := by
  have hm := List.head?_dropWhile_not p l
  rw [h] at hm
  exact hm

/-! ## C1: retry count and backoff schedule of generateContent -/

/-- C1: generateContent makes at most 3 attempts; the delays awaited are
exactly 2 ^ i seconds before the i-th retry (so 2s then 4s and none after
the final attempt); and when the first two attempts fail and the third
succeeds, the successful text is returned after exactly the delays 2 and
4, with 3 attempts made. -/
theorem generateContent_retry_schedule
    (oracle : Nat → Except String String) (e1 e2 s : String)
    (h0 : oracle 0 = Except.error e1) (h1 : oracle 1 = Except.error e2)
    (h2 : oracle 2 = Except.ok s) :
    generateContent oracle =
      { result := Except.ok s, delays := [2, 4], attemptsMade := 3 } ∧
    ∀ o : Nat → Except String String,
      (generateContent o).attemptsMade ≤ 3 ∧
      1 ≤ (generateContent o).attemptsMade ∧
      (generateContent o).delays =
        (List.range ((generateContent o).attemptsMade - 1)).map fun i => 2 ^ (i + 1) := by
  constructor
  · simp [generateContent, genAux, h0, h1, h2]
  · intro o
    cases ho0 : o 0 with
    | ok s0 =>
        refine ⟨?_, ?_, ?_⟩ <;> simp [generateContent, genAux, ho0]
    | error e0 =>
        cases ho1 : o 1 with
        | ok s1 =>
            refine ⟨?_, ?_, ?_⟩ <;>
              simp [generateContent, genAux, ho0, ho1, List.range_succ]
        | error e1 =>
            cases ho2 : o 2 with
            | ok s2 =>
                refine ⟨?_, ?_, ?_⟩ <;>
                  simp [generateContent, genAux, ho0, ho1, ho2, List.range_succ]
            | error e2 =>
                refine ⟨?_, ?_, ?_⟩ <;>
                  simp [generateContent, genAux, ho0, ho1, ho2, List.range_succ]

/-- Witness for C1 at a concrete oracle that fails twice then succeeds. -/
theorem generateContent_retry_schedule_witness :
    generateContent oracleTwoFail =
      { result := Except.ok "done", delays := [2, 4], attemptsMade := 3 } ∧
    ∀ o : Nat → Except String String,
      (generateContent o).attemptsMade ≤ 3 ∧
      1 ≤ (generateContent o).attemptsMade ∧
      (generateContent o).delays =
        (List.range ((generateContent o).attemptsMade - 1)).map fun i => 2 ^ (i + 1) :=
  generateContent_retry_schedule oracleTwoFail "rate limited" "rate limited" "done"
    rfl rfl rfl

/-! ## C2: the message surfaced when all 3 attempts fail -/

/-- C2 (amended): when all 3 attempts fail, generateContent itself throws
a message containing the attempt count and the last underlying message;
summarizeVideo rethrows every error of its try block through the
classifier, so this message reaches the caller wrapped in the generic
prefix exactly when it contains none of the classification substrings
quota, permission, transcript; when it does contain one of them, the
corresponding fixed user message replaces it. -/
theorem generateContent_allFail_surfaced
    (oracle : Nat → Except String String) (e0 e1 e2 : String)
    (h0 : oracle 0 = Except.error e0) (h1 : oracle 1 = Except.error e1)
    (h2 : oracle 2 = Except.error e2) :
    (generateContent oracle).result = Except.error (genFailMsg e2) ∧
    strContains (genFailMsg e2) "3 attempts" = true ∧
    strContains (genFailMsg e2) e2 = true ∧
    (∀ (env : Env) (url e : String) (evs : List NetEvent),
        summarizeVideoTry env url = (Except.error e, evs) →
        summarizeVideo env url = (Except.error (classifyError e), evs)) ∧
    (strContains (genFailMsg e2) "quota" = false →
     strContains (genFailMsg e2) "permission" = false →
     strContains (genFailMsg e2) "transcript" = false →
     classifyError (genFailMsg e2) =
       "Failed to summarize video: " ++ genFailMsg e2) := by
  refine ⟨?_, ?_, ?_, ?_, ?_⟩
  · simp [generateContent, genAux, h0, h1, h2]
  · unfold genFailMsg
    exact strContains_append_left _ _ _ (by decide)
  · unfold genFailMsg
    exact strContains_append_right _ _
  · intro env url e evs h
    unfold summarizeVideo
    rw [h]
  · intro hq hp ht
    simp [classifyError, hq, hp, ht]

/-- C2 counterexample to the claim as stated: every attempt fails with the
message boom quota; the message summarizeVideo surfaces is the fixed quota
user message, which contains neither the attempt count 3 nor the last
underlying message. -/
theorem summarizeVideo_allFail_counterexample :
    (summarizeVideo envQuota urlWatch).1 =
      Except.error "API quota exceeded. Please try again later." ∧
    strContains "API quota exceeded. Please try again later." "3" = false ∧
    strContains "API quota exceeded. Please try again later." "boom quota" = false := by
  refine ⟨by decide, by decide, by decide⟩

/-- Witness for C2 at a concrete oracle failing on every attempt. -/
theorem generateContent_allFail_surfaced_witness :
    (generateContent oracleAllFail).result = Except.error (genFailMsg "bad luck") ∧
    classifyError (genFailMsg "bad luck") =
      "Failed to summarize video: " ++ genFailMsg "bad luck" :=
  ⟨(generateContent_allFail_surfaced oracleAllFail "bad luck" "bad luck" "bad luck"
      rfl rfl rfl).1,
   (generateContent_allFail_surfaced oracleAllFail "bad luck" "bad luck" "bad luck"
      rfl rfl rfl).2.2.2.2 (by decide) (by decide) (by decide)⟩

/-! ## C4: invalid URL fails before any network call -/

/-- C4: when no valid identifier can be extracted, summarizeVideo fails
with the invalid URL error (wrapped in the generic prefix by the
classifier) and its network trace is empty: no metadata fetch, no
transcript fetch, no language model call. -/
theorem summarizeVideo_invalid_url (env : Env) (url : String)
    (h : getYoutubeId url = none) :
    summarizeVideo env url =
      (Except.error "Failed to summarize video: Invalid YouTube URL", []) := by
  unfold summarizeVideo summarizeVideoTry
  rw [h]
  show (Except.error (classifyError "Invalid YouTube URL"), ([] : List NetEvent)) =
    (Except.error "Failed to summarize video: Invalid YouTube URL", [])
  decide

/-- Witness for C4 at a URL without any recognized shape. -/
theorem summarizeVideo_invalid_url_witness :
    summarizeVideo envOk "x" =
      (Except.error "Failed to summarize video: Invalid YouTube URL", []) :=
  summarizeVideo_invalid_url envOk "x" (by decide)

/-! ## C5: transcript truncation -/

/-- C5: the transcript embedded in the prompts is the first 10000
characters followed by the ellipsis marker when the transcript is longer
than 10000 characters, and the transcript itself, unmodified, otherwise;
and each of the three prompts contains the truncated transcript as a
substring. -/
theorem truncatedTranscript_spec (t : String) :
    truncatedTranscript t =
      (if 10000 < t.length then String.mk (t.data.take 10000) ++ "..." else t) ∧
    ∀ title desc : String,
      strContains (shortSummaryPrompt title (truncatedTranscript t))
        (truncatedTranscript t) = true ∧
      strContains (longSummaryPrompt title desc (truncatedTranscript t))
        (truncatedTranscript t) = true ∧
      strContains (keyPointsPrompt title (truncatedTranscript t))
        (truncatedTranscript t) = true := by
  constructor
  · unfold truncatedTranscript
    by_cases h : 10000 < t.length
    · simp [h]
    · simp only [h, if_neg h, gt_iff_lt, if_false, String.append_empty]
      have hle : t.data.length ≤ 10000 := Nat.le_of_not_lt h
      rw [List.take_of_length_le hle]
  · intro title desc
    refine ⟨?_, ?_, ?_⟩
    · unfold shortSummaryPrompt
      exact strContains_middle _ _ _
    · unfold longSummaryPrompt
      exact strContains_middle _ _ _
    · unfold keyPointsPrompt
      exact strContains_middle _ _ _

/-! ## C6: key points post processing -/

/-- C6: the key points response is split into lines, lines whose trimmed
content is empty are discarded, leading numeric markers are stripped from
the remaining lines; on the response of the claim this yields exactly
First, Second, Third. -/
theorem processKeyPoints_example :
    processKeyPoints "1. First\n\n2. Second\n3. Third" = ["First", "Second", "Third"] := by
  decide

/-! ## C7: quota classification dominates -/

/-- C7: whatever error the try block of summarizeVideo propagates, if its
message contains the substring quota then the message surfaced by
summarizeVideo is the fixed quota user message, regardless of the rest of
the message. -/
theorem summarizeVideo_quota_classified (env : Env) (url e : String)
    (evs : List NetEvent)
    (h : summarizeVideoTry env url = (Except.error e, evs))
    (hq : strContains e "quota" = true) :
    summarizeVideo env url =
      (Except.error "API quota exceeded. Please try again later.", evs) := by
  unfold summarizeVideo
  rw [h]
  simp [classifyError, hq]

/-- Witness for C7: a metadata failure whose message contains quota as
well as permission and transcript still surfaces the quota message. -/
theorem summarizeVideo_quota_classified_witness :
    summarizeVideo envQuotaMeta urlShort =
      (Except.error "API quota exceeded. Please try again later.",
       [NetEvent.metadataFetch]) :=
  summarizeVideo_quota_classified envQuotaMeta urlShort
    "quota reached for permission transcript" [NetEvent.metadataFetch]
    (by decide) (by decide)

/-! ## C8: transcript failures never propagate; empty transcript stops
the pipeline before any language model call -/

set_option maxRecDepth 4000 in
/-- C8: getTranscript converts any transcript service failure into the
empty string (it is a total function, so it never throws), and for a valid
identifier with successful metadata, an empty transcript makes
summarizeVideo fail with the transcript unavailable user message with a
network trace containing no language model call. -/
theorem getTranscript_empty_stops_pipeline :
    (∀ (env : Env) (vid e : String),
        env.transcriptSvc vid = Except.error e → getTranscript env vid = "") ∧
    (∀ (env : Env) (url vid title : String) (d : Option String),
        getYoutubeId url = some vid →
        env.info vid = Except.ok (title, d) →
        getTranscript env vid = "" →
        summarizeVideo env url =
          (Except.error "Unable to get video transcript. The video might not have captions available.",
           [NetEvent.metadataFetch, NetEvent.transcriptFetch])) := by
  constructor
  · intro env vid e h
    unfold getTranscript
    rw [h]
  · intro env url vid title d hid hinfo htr
    have htry : summarizeVideoTry env url =
        (Except.error "Unable to fetch video transcript. The video might not have captions available.",
         [NetEvent.metadataFetch, NetEvent.transcriptFetch]) := by
      simp [summarizeVideoTry, hid, hinfo, htr]
    unfold summarizeVideo
    rw [htry]
    show (Except.error (classifyError "Unable to fetch video transcript. The video might not have captions available."),
          [NetEvent.metadataFetch, NetEvent.transcriptFetch]) =
      (Except.error "Unable to get video transcript. The video might not have captions available.",
       [NetEvent.metadataFetch, NetEvent.transcriptFetch])
    decide

/-- Witness for C8 at an environment whose transcript service throws. -/
theorem getTranscript_empty_stops_pipeline_witness :
    getTranscript envNoTranscript "abcdefghijk" = "" ∧
    summarizeVideo envNoTranscript urlShort =
      (Except.error "Unable to get video transcript. The video might not have captions available.",
       [NetEvent.metadataFetch, NetEvent.transcriptFetch]) :=
  ⟨getTranscript_empty_stops_pipeline.1 envNoTranscript "abcdefghijk" "not found" rfl,
   getTranscript_empty_stops_pipeline.2 envNoTranscript urlShort "abcdefghijk" "T" none
     (by decide) rfl rfl⟩

/-! ## C9: the progress interval after completion and after error -/

/-- C9 (evidence of the code bug): on the error path the submit handler
never executes clearInterval (the binding is scoped inside the try block),
so the recurring progress callback is still scheduled when the handler
finishes, e.g. when the request rejects before the first tick or after 5
ticks; only the success path clears the interval explicitly. -/
theorem onSubmit_interval_not_cleared_on_error :
    (onSubmit (Except.error "Failed to summarize video: Invalid YouTube URL") 0).intervalActive
        = true ∧
    (onSubmit (Except.error "Failed to summarize video: Invalid YouTube URL") 5).intervalActive
        = true ∧
    (onSubmit (Except.ok { shortSummary := "s", longSummary := "l", keyPoints := [] })
        5).intervalActive = false := by
  decide

/-! ## C3: characterization of getYoutubeId -/

theorem matchAtoms_some_iff (ps : List RegexAtom) (cs r : List Char) :
    matchAtoms ps cs = some r ↔
      ∃ pre, cs = pre ++ r ∧
        List.Forall₂ (fun a c => atomMatches a c = true) ps pre := by
  induction ps generalizing cs with
  | nil =>
      constructor
      · intro h
        have hcr : cs = r := Option.some.inj (by simpa [matchAtoms] using h)
        exact ⟨[], by simpa using hcr, List.Forall₂.nil⟩
      · rintro ⟨pre, heq, hf⟩
        rw [List.forall₂_nil_left_iff] at hf
        subst hf
        simp only [List.nil_append] at heq
        simp [matchAtoms, heq]
  | cons a ps ih =>
      cases cs with
      | nil =>
          constructor
          · intro h
            exact absurd h (by simp [matchAtoms])
          · rintro ⟨pre, heq, hf⟩
            rw [List.forall₂_cons_left_iff] at hf
            obtain ⟨b, u, hab, hf2, rfl⟩ := hf
            cases heq
      | cons c cs =>
          rw [show matchAtoms (a :: ps) (c :: cs) =
              if atomMatches a c then matchAtoms ps cs else none from rfl]
          by_cases hac : atomMatches a c = true
          · rw [if_pos hac, ih]
            constructor
            · rintro ⟨pre, rfl, hf⟩
              exact ⟨c :: pre, rfl, List.Forall₂.cons hac hf⟩
            · rintro ⟨pre, heq, hf⟩
              rw [List.forall₂_cons_left_iff] at hf
              obtain ⟨b, u, hab, hf2, rfl⟩ := hf
              injection heq with h1 h2
              exact ⟨u, h2, hf2⟩
          · rw [if_neg hac]
            constructor
            · intro h
              cases h
            · rintro ⟨pre, heq, hf⟩
              rw [List.forall₂_cons_left_iff] at hf
              obtain ⟨b, u, hab, hf2, rfl⟩ := hf
              injection heq with h1 h2
              rw [← h1] at hab
              exact absurd hab hac

theorem firstAlt_isSome_iff (ps : List (List RegexAtom)) (cs : List Char) :
    (firstAlt ps cs).isSome = true ↔
      ∃ p ∈ ps, (matchAtoms p cs).isSome = true := by
  induction ps with
  | nil => simp [firstAlt]
  | cons p ps ih =>
      rw [show firstAlt (p :: ps) cs =
          (match matchAtoms p cs with
           | some r => some r
           | none => firstAlt ps cs) from rfl]
      cases hm : matchAtoms p cs with
      | some r =>
          constructor
          · intro _
            exact ⟨p, by simp, by rw [hm]; rfl⟩
          · intro _
            rfl
      | none =>
          simp only []
          rw [ih]
          constructor
          · rintro ⟨q, hq, hqs⟩
            exact ⟨q, by simp [hq], hqs⟩
          · rintro ⟨q, hq, hqs⟩
            rcases List.mem_cons.mp hq with rfl | hq2
            · rw [hm] at hqs
              cases hqs
            · exact ⟨q, hq2, hqs⟩

theorem tryAlt_isSome_iff (cs : List Char) : (tryAlt cs).isSome = true ↔ ShapeHead cs := by
  rw [show tryAlt cs = firstAlt regexAlts cs from rfl, firstAlt_isSome_iff]
  constructor
  · rintro ⟨p, hp, hps⟩
    obtain ⟨r, hr⟩ := Option.isSome_iff_exists.mp hps
    rw [matchAtoms_some_iff] at hr
    obtain ⟨pre, rfl, hf⟩ := hr
    simp only [regexAlts, List.mem_cons, List.not_mem_nil, or_false] at hp
    rcases hp with rfl | rfl | rfl | rfl | rfl | rfl
    · cases hf with | cons h1 hf => ?_
      cases hf with | cons h2 hf => ?_
      cases hf with | cons h3 hf => ?_
      cases hf with | cons h4 hf => ?_
      cases hf with | cons h5 hf => ?_
      cases hf with | cons h6 hf => ?_
      cases hf with | cons h7 hf => ?_
      cases hf with | cons h8 hf => ?_
      cases hf with | cons h9 hf => ?_
      cases hf
      obtain rfl := eq_of_beq h1
      obtain rfl := eq_of_beq h2
      obtain rfl := eq_of_beq h3
      obtain rfl := eq_of_beq h4
      obtain rfl := eq_of_beq h5
      obtain rfl := eq_of_beq h7
      obtain rfl := eq_of_beq h8
      obtain rfl := eq_of_beq h9
      rename_i b6
      have hc : isLineTerm b6 = false := by simpa [atomMatches] using h6
      exact Or.inl ⟨b6, r, hc, rfl⟩
    · cases hf with | cons h1 hf => ?_
      cases hf with | cons h2 hf => ?_
      cases hf
      obtain rfl := eq_of_beq h1
      obtain rfl := eq_of_beq h2
      exact Or.inr (Or.inl ⟨r, rfl⟩)
    · cases hf with | cons h1 hf => ?_
      cases hf with | cons h2 hf => ?_
      cases hf with | cons h3 hf => ?_
      cases hf with | cons h4 hf => ?_
      cases hf
      obtain rfl := eq_of_beq h1
      obtain rfl := eq_of_beq h2
      obtain rfl := eq_of_beq h4
      exact Or.inr (Or.inr (Or.inl ⟨_, r, h3, rfl⟩))
    · cases hf with | cons h1 hf => ?_
      cases hf with | cons h2 hf => ?_
      cases hf with | cons h3 hf => ?_
      cases hf with | cons h4 hf => ?_
      cases hf with | cons h5 hf => ?_
      cases hf with | cons h6 hf => ?_
      cases hf
      obtain rfl := eq_of_beq h1
      obtain rfl := eq_of_beq h2
      obtain rfl := eq_of_beq h3
      obtain rfl := eq_of_beq h4
      obtain rfl := eq_of_beq h5
      obtain rfl := eq_of_beq h6
      exact Or.inr (Or.inr (Or.inr (Or.inl ⟨r, rfl⟩)))
    · cases hf with | cons h1 hf => ?_
      cases hf with | cons h2 hf => ?_
      cases hf with | cons h3 hf => ?_
      cases hf with | cons h4 hf => ?_
      cases hf with | cons h5 hf => ?_
      cases hf with | cons h6 hf => ?_
      cases hf with | cons h7 hf => ?_
      cases hf with | cons h8 hf => ?_
      cases hf
      obtain rfl := eq_of_beq h1
      obtain rfl := eq_of_beq h2
      obtain rfl := eq_of_beq h3
      obtain rfl := eq_of_beq h4
      obtain rfl := eq_of_beq h5
      obtain rfl := eq_of_beq h6
      obtain rfl := eq_of_beq h7
      obtain rfl := eq_of_beq h8
      exact Or.inr (Or.inr (Or.inr (Or.inr (Or.inl ⟨r, rfl⟩))))
    · cases hf with | cons h1 hf => ?_
      cases hf with | cons h2 hf => ?_
      cases hf with | cons h3 hf => ?_
      cases hf
      obtain rfl := eq_of_beq h1
      obtain rfl := eq_of_beq h2
      obtain rfl := eq_of_beq h3
      exact Or.inr (Or.inr (Or.inr (Or.inr (Or.inr ⟨r, rfl⟩))))
  · rintro (⟨c, rest, hc, rfl⟩ | ⟨rest, rfl⟩ | ⟨c, rest, hc, rfl⟩ |
      ⟨rest, rfl⟩ | ⟨rest, rfl⟩ | ⟨rest, rfl⟩)
    · refine ⟨[RegexAtom.lit 'y', RegexAtom.lit 'o', RegexAtom.lit 'u',
        RegexAtom.lit 't', RegexAtom.lit 'u', RegexAtom.dot, RegexAtom.lit 'b',
        RegexAtom.lit 'e', RegexAtom.lit '/'], by simp [regexAlts], ?_⟩
      simp [matchAtoms, atomMatches, hc]
    · refine ⟨[RegexAtom.lit 'v', RegexAtom.lit '/'], by simp [regexAlts], ?_⟩
      simp [matchAtoms, atomMatches]
    · refine ⟨[RegexAtom.lit 'u', RegexAtom.lit '/', RegexAtom.wordChar,
        RegexAtom.lit '/'], by simp [regexAlts], ?_⟩
      simp [matchAtoms, atomMatches, hc]
    · refine ⟨[RegexAtom.lit 'e', RegexAtom.lit 'm', RegexAtom.lit 'b',
        RegexAtom.lit 'e', RegexAtom.lit 'd', RegexAtom.lit '/'],
        by simp [regexAlts], ?_⟩
      simp [matchAtoms, atomMatches]
    · refine ⟨[RegexAtom.lit 'w', RegexAtom.lit 'a', RegexAtom.lit 't',
        RegexAtom.lit 'c', RegexAtom.lit 'h', RegexAtom.lit '?', RegexAtom.lit 'v',
        RegexAtom.lit '='], by simp [regexAlts], ?_⟩
      simp [matchAtoms, atomMatches]
    · refine ⟨[RegexAtom.lit '&', RegexAtom.lit 'v', RegexAtom.lit '='],
        by simp [regexAlts], ?_⟩
      simp [matchAtoms, atomMatches]

theorem scanPos_isSome_iff (cs : List Char) :
    (scanPos cs).isSome = true ↔
      ∃ pre rest, cs = pre ++ rest ∧ (∀ c ∈ pre, isLineTerm c = false) ∧
        (tryAlt rest).isSome = true := by
  induction cs with
  | nil =>
      constructor
      · intro h; exact absurd h (by decide)
      · rintro ⟨pre, rest, heq, hpre, halt⟩
        rcases List.append_eq_nil.mp heq.symm with ⟨rfl, rfl⟩
        exact absurd halt (by decide)
  | cons c cs ih =>
      by_cases hc : isLineTerm c = true
      · simp only [scanPos, if_pos hc]
        constructor
        · intro h
          exact ⟨[], c :: cs, rfl, by simp, h⟩
        · rintro ⟨pre, rest, heq, hpre, halt⟩
          cases pre with
          | nil =>
              have hr : rest = c :: cs := by simpa using heq.symm
              rw [hr] at halt
              exact halt
          | cons p pre =>
              injection heq with h1 h2
              have := hpre p (by simp)
              rw [← h1] at this
              rw [this] at hc
              cases hc
      · have hcf : isLineTerm c = false := by
          cases hcv : isLineTerm c
          · rfl
          · exact absurd hcv hc
        simp only [scanPos, if_neg hc]
        cases hs : scanPos cs with
        | some r =>
            constructor
            · intro _
              have hsome : (scanPos cs).isSome = true := by rw [hs]; rfl
              obtain ⟨pre, rest, heq, hpre, halt⟩ := ih.mp hsome
              refine ⟨c :: pre, rest, by rw [heq]; rfl, ?_, halt⟩
              intro x hx
              rcases List.mem_cons.mp hx with rfl | hx
              · exact hcf
              · exact hpre x hx
            · intro _
              rfl
        | none =>
            constructor
            · intro h
              exact ⟨[], c :: cs, rfl, by simp, h⟩
            · rintro ⟨pre, rest, heq, hpre, halt⟩
              cases pre with
              | nil =>
                  have hr : rest = c :: cs := by simpa using heq.symm
                  rw [hr] at halt
                  exact halt
              | cons p pre =>
                  injection heq with h1 h2
                  have hcs : (scanPos cs).isSome = true :=
                    ih.mpr ⟨pre, rest, h2,
                      fun x hx => hpre x (List.mem_cons_of_mem _ hx), halt⟩
                  rw [hs] at hcs
                  cases hcs

/-- C3 (amended): extraction succeeds and returns the captured token iff
the URL contains, at a position not preceded by any line terminator
character, one of the shapes the regex recognizes (watch?v=, youtu.be/
with the dot matching any single non line terminator character, v/,
embed/, u/<word character>/, and additionally &v=), and the token captured
at the occurrence the matcher selects (reading up to the next one of
# & ?) has exactly 11 characters; for a captured token of any other
length, extraction returns none. -/
theorem getYoutubeId_spec (url t : String) :
    getYoutubeId url = some t ↔
      ((∃ pre rest, url.data = pre ++ rest ∧
          (∀ c ∈ pre, isLineTerm c = false) ∧ ShapeHead rest) ∧
       ∃ rest, scanPos url.data = some rest ∧
         t = String.mk (captureOf rest) ∧ (captureOf rest).length = 11) := by
  unfold getYoutubeId
  cases h : scanPos url.data with
  | none => simp
  | some r =>
      constructor
      · intro hlt
        have hlt2 : (if (captureOf r).length = 11 then some (String.mk (captureOf r))
            else none) = some t := hlt
        by_cases hl : (captureOf r).length = 11
        · rw [if_pos hl] at hlt2
          have ht : t = String.mk (captureOf r) := (Option.some.inj hlt2).symm
          constructor
          · have hsome : (scanPos url.data).isSome = true := by rw [h]; rfl
            obtain ⟨pre, rest, heq, hpre, halt⟩ := (scanPos_isSome_iff url.data).mp hsome
            exact ⟨pre, rest, heq, hpre, (tryAlt_isSome_iff rest).mp halt⟩
          · exact ⟨r, rfl, ht, hl⟩
        · rw [if_neg hl] at hlt2
          cases hlt2
      · rintro ⟨-, rest, hrest, ht, hl⟩
        have hrr : r = rest := Option.some.inj hrest
        rw [← hrr] at ht hl
        show (if (captureOf r).length = 11 then some (String.mk (captureOf r))
            else none) = some t
        rw [if_pos hl, ht]

/-- C3 counterexample to the claim as stated: the URL a&v=abcdefghijk
contains none of the five shapes the claim lists, yet extraction succeeds
through the sixth alternative &v= of the regex. -/
theorem getYoutubeId_extra_shape_counterexample :
    getYoutubeId "a&v=abcdefghijk" = some "abcdefghijk" ∧
    specShapeMatch "a&v=abcdefghijk" = false := by
  refine ⟨by decide, by decide⟩

/-! ## C10: empty key points and trimming -/

theorem jsTrim_head_not_ws (l : List Char) (c : Char)
    (h : (jsTrim l).head? = some c) : c.isWhitespace = false := by
  unfold jsTrim at h
  have hsfx : (l.dropWhile Char.isWhitespace).reverse.dropWhile Char.isWhitespace <:+
      (l.dropWhile Char.isWhitespace).reverse :=
    List.dropWhile_suffix Char.isWhitespace
  obtain ⟨t, ht⟩ := hsfx
  have hm : l.dropWhile Char.isWhitespace =
      ((l.dropWhile Char.isWhitespace).reverse.dropWhile Char.isWhitespace).reverse
        ++ t.reverse := by
    have hrev := congrArg List.reverse ht
    simpa [List.reverse_append] using hrev.symm
  cases hd : ((l.dropWhile Char.isWhitespace).reverse.dropWhile Char.isWhitespace).reverse with
  | nil =>
      rw [hd] at h
      cases h
  | cons a as =>
      rw [hd] at h
      have hca : c = a := by simpa using h.symm
      have hmh : (l.dropWhile Char.isWhitespace).head? = some a := by
        rw [hm, hd]
        rfl
      have hws := head?_dropWhile_false Char.isWhitespace l a hmh
      rw [hca]
      exact hws

theorem jsTrim_last_not_ws (l : List Char) (c : Char)
    (h : (jsTrim l).getLast? = some c) : c.isWhitespace = false := by
  unfold jsTrim at h
  rw [List.getLast?_reverse] at h
  exact head?_dropWhile_false Char.isWhitespace _ c h

/-- C10: since the blank line filter runs before the numeric marker is
stripped, a response whose line consists solely of a marker, such as 3.,
produces the empty string as a key point; still, every element of
keyPoints is the result of a trim and so carries no leading or trailing
whitespace. -/
theorem processKeyPoints_marker_only_line (s p : String)
    (hp : p ∈ processKeyPoints s) :
    processKeyPoints "3." = [""] ∧
    (∀ c, p.data.head? = some c → c.isWhitespace = false) ∧
    (∀ c, p.data.getLast? = some c → c.isWhitespace = false) := by
  refine ⟨by decide, ?_, ?_⟩
  · intro c hc
    unfold processKeyPoints at hp
    obtain ⟨l, hl, rfl⟩ := List.mem_map.mp hp
    exact jsTrim_head_not_ws (stripMarker l) c hc
  · intro c hc
    unfold processKeyPoints at hp
    obtain ⟨l, hl, rfl⟩ := List.mem_map.mp hp
    exact jsTrim_last_not_ws (stripMarker l) c hc

/-- Witness for C10 at the concrete response a. -/
theorem processKeyPoints_marker_only_line_witness :
    processKeyPoints "3." = [""] ∧
    (∀ c, ("a" : String).data.head? = some c → c.isWhitespace = false) ∧
    (∀ c, ("a" : String).data.getLast? = some c → c.isWhitespace = false) :=
  processKeyPoints_marker_only_line "a" "a" (by decide)

end VideoSummarizer
